import Mathlib

/-!
Shallow embedding of two ROCm kernels of the onnxruntime training provider:
the elementwise mixed-precision scale kernel
(`orttraining/orttraining/training_ops/rocm/math/mixed_precision_scale.cu`)
and the batched MatMul dispatcher with its strided-batched planning
predicate `CanUseStridedBatchedGemm`.

Tensor dimensions are `int64_t` in the source and are embedded as `Int`;
machine-width truncation never matters for the properties below.  The
floating-point element types (`half`, `float`) are embedded as abstract
carrier types with uninterpreted cast and multiplication functions, since
the claims are about which elements are computed and written, not about
rounding.
-/

namespace OnnxRocm

/-- Shape of a tensor: an ordered list of `int64_t` dimension extents,
mirroring `onnxruntime::TensorShape`. -/
structure TensorShape where
  dims : List Int
deriving DecidableEq

/-- Number of dimensions, mirroring `TensorShape::NumDimensions`. -/
def TensorShape.NumDimensions (s : TensorShape) : Nat := s.dims.length

/-- Indexing `shape[i]`, mirroring `TensorShape::operator[]`; every use in
the embedded code is guarded to be in range, so the out-of-range default is
irrelevant. -/
def TensorShape.get (s : TensorShape) (i : Nat) : Int := s.dims.getD i 0

/-- Product of the dimensions strictly before index `k`, mirroring
`TensorShape::SizeToDimension(k)`. -/
def TensorShape.SizeToDimension (s : TensorShape) (k : Nat) : Int :=
  ((s.dims.take k).prod)

/-- Total element count, mirroring `TensorShape::Size()`. -/
def TensorShape.Size (s : TensorShape) : Int := s.dims.prod

/-- Values of the four out-parameters `stride_A`, `stride_B`, `stride_C`,
`batch_count` of `CanUseStridedBatchedGemm`. -/
structure GemmStrides where
  stride_A : Int
  stride_B : Int
  stride_C : Int
  batch_count : Int
deriving DecidableEq

/-- Embedding of `CanUseStridedBatchedGemm` (matmul.cu, lines 84-116).
The `int64_t` out-parameters are declared uninitialized by the caller and
assigned only on the `return true` path; this is modelled by returning the
C++ boolean together with `none` (variables still uninitialized) on every
`return false` path and `some` of the assigned values on the `return true`
path. -/
def CanUseStridedBatchedGemm (left_shape right_shape : TensorShape)
    (transa transb : Bool) : Bool × Option GemmStrides :=
  let left_num_dims := left_shape.NumDimensions
  let right_num_dims := right_shape.NumDimensions
  if ¬ (left_num_dims ≥ 3 ∧ right_num_dims ≥ 2) then
    (false, none)
  else
    let left_p := left_shape.SizeToDimension (left_num_dims - 2)
    let left_k := if transa then left_shape.get (left_num_dims - 2)
                  else left_shape.get (left_num_dims - 1)
    if right_num_dims ≥ 3 ∧
        left_p ≠ right_shape.SizeToDimension (right_num_dims - 2) then
      (false, none)
    else
      let right_k := if transb then right_shape.get (right_num_dims - 1)
                     else right_shape.get (right_num_dims - 2)
      if left_k ≠ right_k then
        (false, none)
      else
        let n := if transa then left_shape.get (left_num_dims - 1)
                 else left_shape.get (left_num_dims - 2)
        let m := if transb then right_shape.get (right_num_dims - 2)
                 else right_shape.get (right_num_dims - 1)
        (true, some { stride_A := n * left_k
                    , stride_B := if right_num_dims = 2 then 0 else right_k * m
                    , stride_C := n * m
                    , batch_count := left_p })

/-- Evaluation of `CanUseStridedBatchedGemm` when all three guards pass:
it returns `true` and assigns the four out-parameters. -/
theorem canUse_eq_true (l r : TensorShape) (ta tb : Bool)
    (h1 : l.NumDimensions ≥ 3 ∧ r.NumDimensions ≥ 2)
    (h2 : ¬(r.NumDimensions ≥ 3 ∧
      l.SizeToDimension (l.NumDimensions - 2) ≠ r.SizeToDimension (r.NumDimensions - 2)))
    (h3 : (if ta then l.get (l.NumDimensions - 2) else l.get (l.NumDimensions - 1)) =
      (if tb then r.get (r.NumDimensions - 1) else r.get (r.NumDimensions - 2))) :
    CanUseStridedBatchedGemm l r ta tb =
      (true, some
        { stride_A :=
            (if ta then l.get (l.NumDimensions - 1) else l.get (l.NumDimensions - 2)) *
              (if ta then l.get (l.NumDimensions - 2) else l.get (l.NumDimensions - 1))
        , stride_B :=
            if r.NumDimensions = 2 then 0 else
              (if tb then r.get (r.NumDimensions - 1) else r.get (r.NumDimensions - 2)) *
                (if tb then r.get (r.NumDimensions - 2) else r.get (r.NumDimensions - 1))
        , stride_C :=
            (if ta then l.get (l.NumDimensions - 1) else l.get (l.NumDimensions - 2)) *
              (if tb then r.get (r.NumDimensions - 2) else r.get (r.NumDimensions - 1))
        , batch_count := l.SizeToDimension (l.NumDimensions - 2) }) := by
  simp only [CanUseStridedBatchedGemm]
  rw [if_neg (not_not_intro h1), if_neg h2, if_neg (not_not_intro h3)]

/-- Evaluation of `CanUseStridedBatchedGemm` when the rank guard fails. -/
theorem canUse_eq_false₁ (l r : TensorShape) (ta tb : Bool)
    (h1 : ¬(l.NumDimensions ≥ 3 ∧ r.NumDimensions ≥ 2)) :
    CanUseStridedBatchedGemm l r ta tb = (false, none) := by
  simp only [CanUseStridedBatchedGemm]
  rw [if_pos h1]

/-- Evaluation of `CanUseStridedBatchedGemm` when the batch-product guard
fails. -/
theorem canUse_eq_false₂ (l r : TensorShape) (ta tb : Bool)
    (h1 : l.NumDimensions ≥ 3 ∧ r.NumDimensions ≥ 2)
    (h2 : r.NumDimensions ≥ 3 ∧
      l.SizeToDimension (l.NumDimensions - 2) ≠ r.SizeToDimension (r.NumDimensions - 2)) :
    CanUseStridedBatchedGemm l r ta tb = (false, none) := by
  simp only [CanUseStridedBatchedGemm]
  rw [if_neg (not_not_intro h1), if_pos h2]

/-- Evaluation of `CanUseStridedBatchedGemm` when the contraction-extent
guard fails. -/
theorem canUse_eq_false₃ (l r : TensorShape) (ta tb : Bool)
    (h1 : l.NumDimensions ≥ 3 ∧ r.NumDimensions ≥ 2)
    (h2 : ¬(r.NumDimensions ≥ 3 ∧
      l.SizeToDimension (l.NumDimensions - 2) ≠ r.SizeToDimension (r.NumDimensions - 2)))
    (h3 : (if ta then l.get (l.NumDimensions - 2) else l.get (l.NumDimensions - 1)) ≠
      (if tb then r.get (r.NumDimensions - 1) else r.get (r.NumDimensions - 2))) :
    CanUseStridedBatchedGemm l r ta tb = (false, none) := by
  simp only [CanUseStridedBatchedGemm]
  rw [if_neg (not_not_intro h1), if_neg h2, if_pos h3]

/-- Whenever the predicate returns `true` the out-parameters have been
assigned (they are `some`), shared by several dispatcher proofs below. -/
theorem canUse_true_isSome (l r : TensorShape) (ta tb : Bool)
    (h : (CanUseStridedBatchedGemm l r ta tb).1 = true) :
    ((CanUseStridedBatchedGemm l r ta tb).2).isSome := by
  by_cases h1 : l.NumDimensions ≥ 3 ∧ r.NumDimensions ≥ 2
  · by_cases h2 : r.NumDimensions ≥ 3 ∧
      l.SizeToDimension (l.NumDimensions - 2) ≠ r.SizeToDimension (r.NumDimensions - 2)
    · rw [canUse_eq_false₂ l r ta tb h1 h2] at h
      exact absurd h (by simp)
    · by_cases h3 : (if ta then l.get (l.NumDimensions - 2) else l.get (l.NumDimensions - 1)) =
        (if tb then r.get (r.NumDimensions - 1) else r.get (r.NumDimensions - 2))
      · rw [canUse_eq_true l r ta tb h1 h2 h3]
        rfl
      · rw [canUse_eq_false₃ l r ta tb h1 h2 h3] at h
        exact absurd h (by simp)
  · rw [canUse_eq_false₁ l r ta tb h1] at h
    exact absurd h (by simp)

/-- C2: `CanUseStridedBatchedGemm` returns `true` exactly when the left
shape has at least 3 dimensions, the right shape has at least 2, the batch
dimension products agree whenever the right shape has at least 3
dimensions, and the contraction extents (second-to-last of left if
`transa` else last; last of right if `transb` else second-to-last) agree;
every failing test just returns the boolean `false`. -/
theorem canUse_iff (l r : TensorShape) (ta tb : Bool) :
    (CanUseStridedBatchedGemm l r ta tb).1 = true ↔
      (3 ≤ l.NumDimensions ∧ 2 ≤ r.NumDimensions ∧
       (3 ≤ r.NumDimensions →
         r.SizeToDimension (r.NumDimensions - 2) =
           l.SizeToDimension (l.NumDimensions - 2)) ∧
       (if ta then l.get (l.NumDimensions - 2) else l.get (l.NumDimensions - 1)) =
         (if tb then r.get (r.NumDimensions - 1) else r.get (r.NumDimensions - 2))) := by
  by_cases h1 : l.NumDimensions ≥ 3 ∧ r.NumDimensions ≥ 2
  · by_cases h2 : r.NumDimensions ≥ 3 ∧
      l.SizeToDimension (l.NumDimensions - 2) ≠ r.SizeToDimension (r.NumDimensions - 2)
    · rw [canUse_eq_false₂ l r ta tb h1 h2]
      simp only [Bool.false_eq_true, false_iff]
      rintro ⟨-, -, hb, -⟩
      exact h2.2 (hb h2.1).symm
    · by_cases h3 : (if ta then l.get (l.NumDimensions - 2) else l.get (l.NumDimensions - 1)) =
        (if tb then r.get (r.NumDimensions - 1) else r.get (r.NumDimensions - 2))
      · rw [canUse_eq_true l r ta tb h1 h2 h3]
        refine ⟨fun _ => ⟨h1.1, h1.2, fun hr3 => ?_, h3⟩, fun _ => rfl⟩
        by_contra hne
        exact h2 ⟨hr3, fun he => hne he.symm⟩
      · rw [canUse_eq_false₃ l r ta tb h1 h2 h3]
        simp only [Bool.false_eq_true, false_iff]
        rintro ⟨-, -, -, hk⟩
        exact h3 hk
  · rw [canUse_eq_false₁ l r ta tb h1]
    simp only [Bool.false_eq_true, false_iff]
    rintro ⟨ha, hb, -, -⟩
    exact h1 ⟨ha, hb⟩

/-- Witness for C2: the characterization instantiated at
`A : [2,3,4]`, `B : [2,4,5]` accepts the pair. -/
theorem canUse_iff_witness :
    (CanUseStridedBatchedGemm ⟨[2, 3, 4]⟩ ⟨[2, 4, 5]⟩ false false).1 = true :=
  (canUse_iff ⟨[2, 3, 4]⟩ ⟨[2, 4, 5]⟩ false false).mpr (by decide)

/-- C3: on the `true` path the out-parameters are `batch_count` = product
of the left operand's batch dimensions, `stride_A` = `n * k`, `stride_B` =
`0` when the right operand has exactly 2 dimensions and `k * m` otherwise,
and `stride_C` = `n * m`, with `n`, `m` the transpose-adjusted row/column
extents and `k` the shared contraction extent. -/
theorem canUse_strides (l r : TensorShape) (ta tb : Bool) (s : GemmStrides)
    (h : CanUseStridedBatchedGemm l r ta tb = (true, some s)) :
    s.batch_count = l.SizeToDimension (l.NumDimensions - 2) ∧
    s.stride_A =
      (if ta then l.get (l.NumDimensions - 1) else l.get (l.NumDimensions - 2)) *
        (if ta then l.get (l.NumDimensions - 2) else l.get (l.NumDimensions - 1)) ∧
    s.stride_B =
      (if r.NumDimensions = 2 then 0 else
        (if ta then l.get (l.NumDimensions - 2) else l.get (l.NumDimensions - 1)) *
          (if tb then r.get (r.NumDimensions - 2) else r.get (r.NumDimensions - 1))) ∧
    s.stride_C =
      (if ta then l.get (l.NumDimensions - 1) else l.get (l.NumDimensions - 2)) *
        (if tb then r.get (r.NumDimensions - 2) else r.get (r.NumDimensions - 1)) := by
  by_cases h1 : l.NumDimensions ≥ 3 ∧ r.NumDimensions ≥ 2
  · by_cases h2 : r.NumDimensions ≥ 3 ∧
      l.SizeToDimension (l.NumDimensions - 2) ≠ r.SizeToDimension (r.NumDimensions - 2)
    · rw [canUse_eq_false₂ l r ta tb h1 h2] at h
      simp at h
    · by_cases h3 : (if ta then l.get (l.NumDimensions - 2) else l.get (l.NumDimensions - 1)) =
        (if tb then r.get (r.NumDimensions - 1) else r.get (r.NumDimensions - 2))
      · rw [canUse_eq_true l r ta tb h1 h2 h3] at h
        have hs : some _ = some s := congrArg Prod.snd h
        have hss := (Option.some.injEq _ _).mp hs
        subst hss
        refine ⟨rfl, rfl, ?_, rfl⟩
        rw [h3]
      · rw [canUse_eq_false₃ l r ta tb h1 h2 h3] at h
        simp at h
  · rw [canUse_eq_false₁ l r ta tb h1] at h
    simp at h

/-- Witness for C3 at `A : [2,3,4]`, `B : [4,5]`, no transposes: the
predicate accepts with `stride_A = 12`, `stride_B = 0`, `stride_C = 15`,
`batch_count = 2`. -/
theorem canUse_strides_witness :
    (⟨12, 0, 15, 2⟩ : GemmStrides).batch_count =
        TensorShape.SizeToDimension ⟨[2, 3, 4]⟩ 1 ∧
      (⟨12, 0, 15, 2⟩ : GemmStrides).stride_B = 0 := by
  have h := canUse_strides ⟨[2, 3, 4]⟩ ⟨[4, 5]⟩ false false ⟨12, 0, 15, 2⟩ (by decide)
  exact ⟨h.1, h.2.2.1.trans (by decide)⟩

/-! ### The MatMul dispatcher (`MatMul<T>::ComputeInternal`)

External collaborators are modelled explicitly: the broadcasting shape
helper `MatMulComputeHelper` (declared in
`core/providers/cpu/math/matmul_helper.h`, outside these sources) is an
abstract function from the two shapes and the two effective transpose
flags to either an error status or its published outputs, and the device
(staging copies and the three rocBLAS entry points) is an environment
assigning a status to each external call.  `ComputeInternal` itself is a
pure function returning its status together with the ordered trace of
device actions it performed. -/

/-- Status of a single external call (a staging copy or a rocBLAS call):
`ok`, or an error carrying an abstract error code. -/
inductive ExtStatus where
  | ok : ExtStatus
  | error : Nat → ExtStatus
deriving DecidableEq

/-- The three BLAS call shapes the dispatcher can issue. -/
inductive CallKind where
  | single : CallKind
  | stridedBatched : CallKind
  | pointerBatched : CallKind
deriving DecidableEq

/-- Which input tensor's data pointer is passed in an operand slot. -/
inductive OperandSide where
  | leftTensor : OperandSide
  | rightTensor : OperandSide
deriving DecidableEq

/-- Arguments of one rocBLAS GEMM-family call, in the order the dispatcher
passes them: transpose flags, the dimension triple, the two operand slots
with their leading dimensions, the output leading dimension, and (when the
call shape has them) strides and a batch count.  The scalar arguments
`alpha` and `zero` are device constants outside the model. -/
structure BlasCall where
  kind : CallKind
  transFirst : Bool
  transSecond : Bool
  dim1 : Int
  dim2 : Int
  dim3 : Int
  firstOp : OperandSide
  ldFirst : Int
  secondOp : OperandSide
  ldSecond : Int
  ldOut : Int
  strideFirst : Option Int
  strideSecond : Option Int
  strideOut : Option Int
  batchCount : Option Int
deriving DecidableEq

/-- The three pointer arrays staged to device memory on the fallback path. -/
inductive StageKind where
  | leftArrays : StageKind
  | rightArrays : StageKind
  | outputArrays : StageKind
deriving DecidableEq

/-- One device-visible step performed by `ComputeInternal`. -/
inductive Action where
  | allocOutput : TensorShape → Action
  | stage : StageKind → Action
  | blas : BlasCall → Action
deriving DecidableEq

/-- Modelled from the spec: the outputs published by the external
broadcasting shape helper `MatMulComputeHelper` after a successful
`Compute(leftShape, rightShape, transa, transb)` — the GEMM dimensions
`M`, `N`, `K`, the computed output shape, and the per-slice offset lists
for the left input, the right input and the output.  The helper itself is
not part of these sources. -/
structure HelperResult where
  M : Int
  N : Int
  K : Int
  outputShape : TensorShape
  leftOffsets : List Int
  rightOffsets : List Int
  outputOffsets : List Int
deriving DecidableEq

/-- Modelled from the spec: the external shape helper, abstracted as any
function from the shapes and effective transpose flags to an error code or
a `HelperResult`. -/
def HelperFun : Type :=
  TensorShape → TensorShape → Bool → Bool → Except Nat HelperResult

/-- Device environment: the statuses the external device operations return
when invoked — one per staging copy of the fallback path, and one per
possible rocBLAS call. -/
structure DeviceEnv where
  copyLeftStatus : ExtStatus
  copyRightStatus : ExtStatus
  copyOutputStatus : ExtStatus
  blasStatus : BlasCall → ExtStatus

/-- Overall outcome of `ComputeInternal`: `Status::OK()`, an error status,
or the (undefined-behavior) read of an uninitialized `int64_t` stride
variable, which the embedding makes an explicit outcome. -/
inductive ComputeResult where
  | ok : ComputeResult
  | error : Nat → ComputeResult
  | uninitRead : ComputeResult
deriving DecidableEq

/-- Transpose-flag suppression of `ComputeInternal` (matmul.cu, lines
125-134): the attribute is ignored when the corresponding input has rank
one. -/
def forceFlag (shape : TensorShape) (flag : Bool) : Bool :=
  if shape.NumDimensions = 1 then false else flag

/-- Leading dimension of the left operand, `lda` (matmul.cu, line 152). -/
def ldaOf (transa : Bool) (h : HelperResult) : Int :=
  if transa then h.M else h.K

/-- Leading dimension of the right operand, `ldb` (matmul.cu, line 153). -/
def ldbOf (transb : Bool) (h : HelperResult) : Int :=
  if transb then h.K else h.N

/-- Arguments of the `rocblasGemmHelper` call of the single-GEMM branch
(matmul.cu, lines 173-187). -/
def singleCall (transa transb : Bool) (h : HelperResult) : BlasCall :=
  { kind := .single, transFirst := transb, transSecond := transa
  , dim1 := h.N, dim2 := h.M, dim3 := h.K
  , firstOp := .rightTensor, ldFirst := ldbOf transb h
  , secondOp := .leftTensor, ldSecond := ldaOf transa h, ldOut := h.N
  , strideFirst := none, strideSecond := none, strideOut := none
  , batchCount := none }

/-- Arguments of the `rocblasGemmStridedBatchedHelper` call (matmul.cu,
lines 209-226). -/
def stridedCall (transa transb : Bool) (h : HelperResult) (s : GemmStrides) : BlasCall :=
  { kind := .stridedBatched, transFirst := transb, transSecond := transa
  , dim1 := h.N, dim2 := h.M, dim3 := h.K
  , firstOp := .rightTensor, ldFirst := ldbOf transb h
  , secondOp := .leftTensor, ldSecond := ldaOf transa h, ldOut := h.N
  , strideFirst := some s.stride_B, strideSecond := some s.stride_A
  , strideOut := some s.stride_C, batchCount := some s.batch_count }

/-- Arguments of the `rocblasGemmBatchedHelper` call of the fallback
pointer-array branch (matmul.cu, lines 258-273). -/
def batchedCall (transa transb : Bool) (h : HelperResult) : BlasCall :=
  { kind := .pointerBatched, transFirst := transb, transSecond := transa
  , dim1 := h.N, dim2 := h.M, dim3 := h.K
  , firstOp := .rightTensor, ldFirst := ldbOf transb h
  , secondOp := .leftTensor, ldSecond := ldaOf transa h, ldOut := h.N
  , strideFirst := none, strideSecond := none, strideOut := none
  , batchCount := some (h.outputOffsets.length : Int) }

/-- Status propagation of `ROCBLAS_RETURN_IF_ERROR` followed by
`return Status::OK()`: an error status is returned as-is, success falls
through to `OK`. -/
def statusToResult : ExtStatus → ComputeResult
  | .ok => .ok
  | .error e => .error e

/-- Embedding of `MatMul<T>::ComputeInternal` (matmul.cu, lines 118-275).
It returns the final status together with the ordered trace of device
actions: output allocation, staging copies, and the one rocBLAS call of
whichever call shape the triage selects.  The four `int64_t` stride
variables declared uninitialized at line 155 are the `Option` component
returned by `CanUseStridedBatchedGemm`; reading them while still `none`
yields the explicit `uninitRead` outcome. -/
def ComputeInternal (env : DeviceEnv) (helperCompute : HelperFun)
    (leftShape rightShape : TensorShape) (trans_A_ trans_B_ : Bool) :
    ComputeResult × List Action :=
  let transa := forceFlag leftShape trans_A_
  let transb := forceFlag rightShape trans_B_
  match helperCompute leftShape rightShape transa transb with
  | .error e => (.error e, [])
  | .ok h =>
    let allocActs := [Action.allocOutput h.outputShape]
    if h.outputShape.Size = 0 then
      (.ok, allocActs)
    else
      let strideVars := CanUseStridedBatchedGemm leftShape rightShape transa transb
      if h.outputOffsets.length = 1 then
        let c := singleCall transa transb h
        (statusToResult (env.blasStatus c), allocActs ++ [.blas c])
      else if strideVars.1 then
        match strideVars.2 with
        | none => (.uninitRead, allocActs)
        | some s =>
          let c := stridedCall transa transb h s
          (statusToResult (env.blasStatus c), allocActs ++ [.blas c])
      else
        let acts1 := allocActs ++ [Action.stage .leftArrays]
        match env.copyLeftStatus with
        | .error e => (.error e, acts1)
        | .ok =>
          let acts2 := acts1 ++ [Action.stage .rightArrays]
          match env.copyRightStatus with
          | .error e => (.error e, acts2)
          | .ok =>
            let acts3 := acts2 ++ [Action.stage .outputArrays]
            match env.copyOutputStatus with
            | .error e => (.error e, acts3)
            | .ok =>
              let c := batchedCall transa transb h
              (statusToResult (env.blasStatus c), acts3 ++ [.blas c])

/-- Projection of a trace to the rocBLAS calls it contains. -/
def blasCalls (acts : List Action) : List BlasCall :=
  acts.filterMap (fun a => match a with
    | .blas c => some c
    | _ => none)

/-- Projection of a trace to the staging copies it contains. -/
def stageCopies (acts : List Action) : List StageKind :=
  acts.filterMap (fun a => match a with
    | .stage k => some k
    | _ => none)

/-- Evaluation of `ComputeInternal` when the shape helper fails. -/
theorem computeInternal_helper_err (env : DeviceEnv) (helper : HelperFun)
    (l r : TensorShape) (tA tB : Bool) (e : Nat)
    (hh : helper l r (forceFlag l tA) (forceFlag r tB) = .error e) :
    ComputeInternal env helper l r tA tB = (.error e, []) := by
  simp only [ComputeInternal, hh]

/-- Evaluation of `ComputeInternal` on an empty output. -/
theorem computeInternal_empty (env : DeviceEnv) (helper : HelperFun)
    (l r : TensorShape) (tA tB : Bool) (hr : HelperResult)
    (hh : helper l r (forceFlag l tA) (forceFlag r tB) = .ok hr)
    (hsz : hr.outputShape.Size = 0) :
    ComputeInternal env helper l r tA tB = (.ok, [.allocOutput hr.outputShape]) := by
  simp only [ComputeInternal, hh, hsz, if_pos]

/-- Evaluation of `ComputeInternal` on the single-GEMM branch. -/
theorem computeInternal_single (env : DeviceEnv) (helper : HelperFun)
    (l r : TensorShape) (tA tB : Bool) (hr : HelperResult)
    (hh : helper l r (forceFlag l tA) (forceFlag r tB) = .ok hr)
    (hsz : hr.outputShape.Size ≠ 0)
    (hone : hr.outputOffsets.length = 1) :
    ComputeInternal env helper l r tA tB =
      (statusToResult (env.blasStatus (singleCall (forceFlag l tA) (forceFlag r tB) hr)),
       [.allocOutput hr.outputShape,
        .blas (singleCall (forceFlag l tA) (forceFlag r tB) hr)]) := by
  simp only [ComputeInternal, hh, hsz, hone]
  simp

/-- Evaluation of `ComputeInternal` on the strided-batched branch. -/
theorem computeInternal_strided (env : DeviceEnv) (helper : HelperFun)
    (l r : TensorShape) (tA tB : Bool) (hr : HelperResult) (s : GemmStrides)
    (hh : helper l r (forceFlag l tA) (forceFlag r tB) = .ok hr)
    (hsz : hr.outputShape.Size ≠ 0)
    (hone : hr.outputOffsets.length ≠ 1)
    (hcu : CanUseStridedBatchedGemm l r (forceFlag l tA) (forceFlag r tB) = (true, some s)) :
    ComputeInternal env helper l r tA tB =
      (statusToResult (env.blasStatus (stridedCall (forceFlag l tA) (forceFlag r tB) hr s)),
       [.allocOutput hr.outputShape,
        .blas (stridedCall (forceFlag l tA) (forceFlag r tB) hr s)]) := by
  simp only [ComputeInternal, hh, hcu]
  rw [if_neg hsz, if_neg hone]
  rfl

/-- Evaluation of `ComputeInternal` on the fallback branch with a given
status of each staging copy; stated for all four outcomes at once via
explicit hypotheses below. -/
theorem computeInternal_fallback_ok (env : DeviceEnv) (helper : HelperFun)
    (l r : TensorShape) (tA tB : Bool) (hr : HelperResult)
    (hh : helper l r (forceFlag l tA) (forceFlag r tB) = .ok hr)
    (hsz : hr.outputShape.Size ≠ 0)
    (hone : hr.outputOffsets.length ≠ 1)
    (hcu : (CanUseStridedBatchedGemm l r (forceFlag l tA) (forceFlag r tB)).1 = false)
    (hcl : env.copyLeftStatus = .ok)
    (hcr : env.copyRightStatus = .ok)
    (hco : env.copyOutputStatus = .ok) :
    ComputeInternal env helper l r tA tB =
      (statusToResult (env.blasStatus (batchedCall (forceFlag l tA) (forceFlag r tB) hr)),
       [.allocOutput hr.outputShape, .stage .leftArrays, .stage .rightArrays,
        .stage .outputArrays,
        .blas (batchedCall (forceFlag l tA) (forceFlag r tB) hr)]) := by
  simp only [ComputeInternal, hh, hcu, hcl, hcr, hco]
  rw [if_neg hsz, if_neg hone]
  simp

/-- Evaluation of `ComputeInternal` when staging the left pointer array
fails. -/
theorem computeInternal_fallback_errL (env : DeviceEnv) (helper : HelperFun)
    (l r : TensorShape) (tA tB : Bool) (hr : HelperResult) (e : Nat)
    (hh : helper l r (forceFlag l tA) (forceFlag r tB) = .ok hr)
    (hsz : hr.outputShape.Size ≠ 0)
    (hone : hr.outputOffsets.length ≠ 1)
    (hcu : (CanUseStridedBatchedGemm l r (forceFlag l tA) (forceFlag r tB)).1 = false)
    (hcl : env.copyLeftStatus = .error e) :
    ComputeInternal env helper l r tA tB =
      (.error e, [.allocOutput hr.outputShape, .stage .leftArrays]) := by
  simp only [ComputeInternal, hh, hcu, hcl]
  rw [if_neg hsz, if_neg hone]
  simp

/-- Evaluation of `ComputeInternal` when staging the right pointer array
fails. -/
theorem computeInternal_fallback_errR (env : DeviceEnv) (helper : HelperFun)
    (l r : TensorShape) (tA tB : Bool) (hr : HelperResult) (e : Nat)
    (hh : helper l r (forceFlag l tA) (forceFlag r tB) = .ok hr)
    (hsz : hr.outputShape.Size ≠ 0)
    (hone : hr.outputOffsets.length ≠ 1)
    (hcu : (CanUseStridedBatchedGemm l r (forceFlag l tA) (forceFlag r tB)).1 = false)
    (hcl : env.copyLeftStatus = .ok)
    (hcr : env.copyRightStatus = .error e) :
    ComputeInternal env helper l r tA tB =
      (.error e, [.allocOutput hr.outputShape, .stage .leftArrays,
        .stage .rightArrays]) := by
  simp only [ComputeInternal, hh, hcu, hcl, hcr]
  rw [if_neg hsz, if_neg hone]
  simp

/-- Evaluation of `ComputeInternal` when staging the output pointer array
fails. -/
theorem computeInternal_fallback_errO (env : DeviceEnv) (helper : HelperFun)
    (l r : TensorShape) (tA tB : Bool) (hr : HelperResult) (e : Nat)
    (hh : helper l r (forceFlag l tA) (forceFlag r tB) = .ok hr)
    (hsz : hr.outputShape.Size ≠ 0)
    (hone : hr.outputOffsets.length ≠ 1)
    (hcu : (CanUseStridedBatchedGemm l r (forceFlag l tA) (forceFlag r tB)).1 = false)
    (hcl : env.copyLeftStatus = .ok)
    (hcr : env.copyRightStatus = .ok)
    (hco : env.copyOutputStatus = .error e) :
    ComputeInternal env helper l r tA tB =
      (.error e, [.allocOutput hr.outputShape, .stage .leftArrays,
        .stage .rightArrays, .stage .outputArrays]) := by
  simp only [ComputeInternal, hh, hcu, hcl, hcr, hco]
  rw [if_neg hsz, if_neg hone]
  simp

/-- Packaging of a `true` answer of the planning predicate together with
the assigned out-parameters, shared by the dispatcher proofs. -/
theorem canUse_true_pair (l r : TensorShape) (ta tb : Bool)
    (h : (CanUseStridedBatchedGemm l r ta tb).1 = true) :
    ∃ s, CanUseStridedBatchedGemm l r ta tb = (true, some s) := by
  have hsome := canUse_true_isSome l r ta tb h
  rcases ho : (CanUseStridedBatchedGemm l r ta tb).2 with _ | s
  · rw [ho] at hsome
    simp at hsome
  · exact ⟨s, by rw [← h, ← ho]⟩

/-- C1: whenever the shape helper accepts the inputs and the output is
nonempty (and device staging succeeds on the fallback path), the
dispatcher issues exactly one BLAS call, whose shape follows the
precedence: single GEMM if the helper produced exactly one output offset,
otherwise strided-batched GEMM if the planning predicate accepts,
otherwise pointer-array batched GEMM. -/
theorem matmul_dispatch_precedence (env : DeviceEnv) (helper : HelperFun)
    (l r : TensorShape) (tA tB : Bool) (hr : HelperResult)
    (hh : helper l r (forceFlag l tA) (forceFlag r tB) = .ok hr)
    (hsz : hr.outputShape.Size ≠ 0)
    (hcl : env.copyLeftStatus = .ok)
    (hcr : env.copyRightStatus = .ok)
    (hco : env.copyOutputStatus = .ok) :
    ∃ c : BlasCall,
      blasCalls (ComputeInternal env helper l r tA tB).2 = [c] ∧
      c.kind = (if hr.outputOffsets.length = 1 then CallKind.single
        else if (CanUseStridedBatchedGemm l r (forceFlag l tA) (forceFlag r tB)).1 then
          CallKind.stridedBatched
        else CallKind.pointerBatched) := by
  by_cases hone : hr.outputOffsets.length = 1
  · refine ⟨singleCall (forceFlag l tA) (forceFlag r tB) hr, ?_, ?_⟩
    · rw [computeInternal_single env helper l r tA tB hr hh hsz hone]
      rfl
    · rw [if_pos hone]
      rfl
  · by_cases hcu : (CanUseStridedBatchedGemm l r (forceFlag l tA) (forceFlag r tB)).1 = true
    · obtain ⟨s, hpair⟩ := canUse_true_pair l r (forceFlag l tA) (forceFlag r tB) hcu
      refine ⟨stridedCall (forceFlag l tA) (forceFlag r tB) hr s, ?_, ?_⟩
      · rw [computeInternal_strided env helper l r tA tB hr s hh hsz hone hpair]
        rfl
      · rw [if_neg hone, if_pos hcu]
        rfl
    · have hcu' : (CanUseStridedBatchedGemm l r (forceFlag l tA) (forceFlag r tB)).1 = false :=
        Bool.not_eq_true _ ▸ Bool.of_not_eq_true hcu
      refine ⟨batchedCall (forceFlag l tA) (forceFlag r tB) hr, ?_, ?_⟩
      · rw [computeInternal_fallback_ok env helper l r tA tB hr hh hsz hone hcu' hcl hcr hco]
        rfl
      · rw [if_neg hone, if_neg hcu]
        rfl

/-- Witness for C1: a 2x2 by 2x2 product with one output offset selects
the single-GEMM call shape. -/
theorem matmul_dispatch_precedence_witness :
    ∃ c : BlasCall,
      blasCalls (ComputeInternal ⟨.ok, .ok, .ok, fun _ => .ok⟩
        (fun _ _ _ _ => .ok ⟨2, 2, 2, ⟨[2, 2]⟩, [0], [0], [0]⟩)
        ⟨[2, 2]⟩ ⟨[2, 2]⟩ false false).2 = [c] ∧
      c.kind = CallKind.single :=
  matmul_dispatch_precedence ⟨.ok, .ok, .ok, fun _ => .ok⟩
    (fun _ _ _ _ => .ok ⟨2, 2, 2, ⟨[2, 2]⟩, [0], [0], [0]⟩)
    ⟨[2, 2]⟩ ⟨[2, 2]⟩ false false ⟨2, 2, 2, ⟨[2, 2]⟩, [0], [0], [0]⟩
    rfl (by decide) rfl rfl rfl

/-- C5: every BLAS call the dispatcher issues passes the right operand in
the first (left) slot with `transB` first, the left operand in the second
slot with `transA` second, and the dimension arguments in the order
`N`, `M`, `K`. -/
theorem matmul_blas_swapped_operands (env : DeviceEnv) (helper : HelperFun)
    (l r : TensorShape) (tA tB : Bool) (hr : HelperResult)
    (hh : helper l r (forceFlag l tA) (forceFlag r tB) = .ok hr)
    (c : BlasCall)
    (hc : c ∈ blasCalls (ComputeInternal env helper l r tA tB).2) :
    c.firstOp = .rightTensor ∧ c.transFirst = forceFlag r tB ∧
    c.secondOp = .leftTensor ∧ c.transSecond = forceFlag l tA ∧
    c.dim1 = hr.N ∧ c.dim2 = hr.M ∧ c.dim3 = hr.K := by
  by_cases hsz : hr.outputShape.Size = 0
  · rw [computeInternal_empty env helper l r tA tB hr hh hsz] at hc
    simp [blasCalls] at hc
  · by_cases hone : hr.outputOffsets.length = 1
    · rw [computeInternal_single env helper l r tA tB hr hh hsz hone] at hc
      have : c = singleCall (forceFlag l tA) (forceFlag r tB) hr := by
        simpa [blasCalls] using hc
      subst this
      exact ⟨rfl, rfl, rfl, rfl, rfl, rfl, rfl⟩
    · by_cases hcu : (CanUseStridedBatchedGemm l r (forceFlag l tA) (forceFlag r tB)).1 = true
      · obtain ⟨s, hpair⟩ := canUse_true_pair l r (forceFlag l tA) (forceFlag r tB) hcu
        rw [computeInternal_strided env helper l r tA tB hr s hh hsz hone hpair] at hc
        have : c = stridedCall (forceFlag l tA) (forceFlag r tB) hr s := by
          simpa [blasCalls] using hc
        subst this
        exact ⟨rfl, rfl, rfl, rfl, rfl, rfl, rfl⟩
      · have hcu' : (CanUseStridedBatchedGemm l r (forceFlag l tA) (forceFlag r tB)).1 = false :=
          Bool.not_eq_true _ ▸ Bool.of_not_eq_true hcu
        rcases hcl : env.copyLeftStatus with _ | e
        · rcases hcr : env.copyRightStatus with _ | e
          · rcases hco : env.copyOutputStatus with _ | e
            · rw [computeInternal_fallback_ok env helper l r tA tB hr
                hh hsz hone hcu' hcl hcr hco] at hc
              have : c = batchedCall (forceFlag l tA) (forceFlag r tB) hr := by
                simpa [blasCalls] using hc
              subst this
              exact ⟨rfl, rfl, rfl, rfl, rfl, rfl, rfl⟩
            · rw [computeInternal_fallback_errO env helper l r tA tB hr e
                hh hsz hone hcu' hcl hcr hco] at hc
              simp [blasCalls] at hc
          · rw [computeInternal_fallback_errR env helper l r tA tB hr e
              hh hsz hone hcu' hcl hcr] at hc
            simp [blasCalls] at hc
        · rw [computeInternal_fallback_errL env helper l r tA tB hr e
            hh hsz hone hcu' hcl] at hc
          simp [blasCalls] at hc

/-- Witness for C5 at the single-GEMM call of a 2x2 by 2x2 product. -/
theorem matmul_blas_swapped_operands_witness :
    (singleCall false false (⟨2, 3, 4, ⟨[2, 2]⟩, [0], [0], [0]⟩ : HelperResult)).firstOp =
        .rightTensor ∧
      (singleCall false false (⟨2, 3, 4, ⟨[2, 2]⟩, [0], [0], [0]⟩ : HelperResult)).transFirst =
        false ∧
      (singleCall false false (⟨2, 3, 4, ⟨[2, 2]⟩, [0], [0], [0]⟩ : HelperResult)).secondOp =
        .leftTensor ∧
      (singleCall false false (⟨2, 3, 4, ⟨[2, 2]⟩, [0], [0], [0]⟩ : HelperResult)).transSecond =
        false ∧
      (singleCall false false (⟨2, 3, 4, ⟨[2, 2]⟩, [0], [0], [0]⟩ : HelperResult)).dim1 = 3 ∧
      (singleCall false false (⟨2, 3, 4, ⟨[2, 2]⟩, [0], [0], [0]⟩ : HelperResult)).dim2 = 2 ∧
      (singleCall false false (⟨2, 3, 4, ⟨[2, 2]⟩, [0], [0], [0]⟩ : HelperResult)).dim3 = 4 :=
  matmul_blas_swapped_operands ⟨.ok, .ok, .ok, fun _ => .ok⟩
    (fun _ _ _ _ => .ok ⟨2, 3, 4, ⟨[2, 2]⟩, [0], [0], [0]⟩)
    ⟨[2, 2]⟩ ⟨[2, 2]⟩ false false ⟨2, 3, 4, ⟨[2, 2]⟩, [0], [0], [0]⟩ rfl
    (singleCall false false ⟨2, 3, 4, ⟨[2, 2]⟩, [0], [0], [0]⟩) (by decide)

/-- C6: when an input has rank one, flipping its transpose attribute has
no observable effect: the dispatcher's entire result (status and device
trace) is unchanged, because the flag is forced to `false` before the
helper call, the planning predicate and every BLAS call. -/
theorem matmul_vector_transpose_noop (env : DeviceEnv) (helper : HelperFun)
    (l r : TensorShape) (tA tB : Bool) :
    (l.NumDimensions = 1 →
      ComputeInternal env helper l r true tB = ComputeInternal env helper l r false tB) ∧
    (r.NumDimensions = 1 →
      ComputeInternal env helper l r tA true = ComputeInternal env helper l r tA false) := by
  constructor
  · intro h1
    have hf : forceFlag l true = forceFlag l false := by simp [forceFlag, h1]
    simp only [ComputeInternal, hf]
  · intro h1
    have hf : forceFlag r true = forceFlag r false := by simp [forceFlag, h1]
    simp only [ComputeInternal, hf]

/-- Witness for C6 on two rank-one inputs. -/
theorem matmul_vector_transpose_noop_witness :
    ComputeInternal ⟨.ok, .ok, .ok, fun _ => .ok⟩
        (fun _ _ _ _ => .ok ⟨1, 1, 3, ⟨[]⟩, [0], [0], [0]⟩) ⟨[3]⟩ ⟨[3]⟩ true false =
      ComputeInternal ⟨.ok, .ok, .ok, fun _ => .ok⟩
        (fun _ _ _ _ => .ok ⟨1, 1, 3, ⟨[]⟩, [0], [0], [0]⟩) ⟨[3]⟩ ⟨[3]⟩ false false :=
  (matmul_vector_transpose_noop ⟨.ok, .ok, .ok, fun _ => .ok⟩
    (fun _ _ _ _ => .ok ⟨1, 1, 3, ⟨[]⟩, [0], [0], [0]⟩) ⟨[3]⟩ ⟨[3]⟩ true false).1 rfl

/-- C7: an empty computed output returns `Status::OK()` right after the
output allocation, with no BLAS call and no staging copy. -/
theorem matmul_empty_output_early_exit (env : DeviceEnv) (helper : HelperFun)
    (l r : TensorShape) (tA tB : Bool) (hr : HelperResult)
    (hh : helper l r (forceFlag l tA) (forceFlag r tB) = .ok hr)
    (hsz : hr.outputShape.Size = 0) :
    ComputeInternal env helper l r tA tB = (.ok, [.allocOutput hr.outputShape]) ∧
    blasCalls (ComputeInternal env helper l r tA tB).2 = [] ∧
    stageCopies (ComputeInternal env helper l r tA tB).2 = [] := by
  have h := computeInternal_empty env helper l r tA tB hr hh hsz
  refine ⟨h, ?_, ?_⟩ <;> rw [h] <;> rfl

/-- Witness for C7 at an output shape `[2,0]`. -/
theorem matmul_empty_output_early_exit_witness :
    ComputeInternal ⟨.ok, .ok, .ok, fun _ => .ok⟩
        (fun _ _ _ _ => .ok ⟨0, 2, 3, ⟨[2, 0]⟩, [0], [0], [0]⟩)
        ⟨[2, 3]⟩ ⟨[3, 0]⟩ false false =
      (.ok, [.allocOutput ⟨[2, 0]⟩]) :=
  (matmul_empty_output_early_exit ⟨.ok, .ok, .ok, fun _ => .ok⟩
    (fun _ _ _ _ => .ok ⟨0, 2, 3, ⟨[2, 0]⟩, [0], [0], [0]⟩)
    ⟨[2, 3]⟩ ⟨[3, 0]⟩ false false ⟨0, 2, 3, ⟨[2, 0]⟩, [0], [0], [0]⟩ rfl (by decide)).1

/-- C8: on the pointer-array fallback, an error from staging any of the
three pointer arrays is returned at once (no BLAS call issued), and an
error from the batched BLAS call is returned as-is with exactly that one
call issued. -/
theorem matmul_fallback_error_propagation (env : DeviceEnv) (helper : HelperFun)
    (l r : TensorShape) (tA tB : Bool) (hr : HelperResult)
    (hh : helper l r (forceFlag l tA) (forceFlag r tB) = .ok hr)
    (hsz : hr.outputShape.Size ≠ 0)
    (hone : hr.outputOffsets.length ≠ 1)
    (hcu : (CanUseStridedBatchedGemm l r (forceFlag l tA) (forceFlag r tB)).1 = false) :
    (∀ e, env.copyLeftStatus = .error e →
      ComputeInternal env helper l r tA tB =
        (.error e, [.allocOutput hr.outputShape, .stage .leftArrays])) ∧
    (∀ e, env.copyLeftStatus = .ok → env.copyRightStatus = .error e →
      ComputeInternal env helper l r tA tB =
        (.error e, [.allocOutput hr.outputShape, .stage .leftArrays, .stage .rightArrays])) ∧
    (∀ e, env.copyLeftStatus = .ok → env.copyRightStatus = .ok →
      env.copyOutputStatus = .error e →
      ComputeInternal env helper l r tA tB =
        (.error e, [.allocOutput hr.outputShape, .stage .leftArrays, .stage .rightArrays,
          .stage .outputArrays])) ∧
    (∀ e, env.copyLeftStatus = .ok → env.copyRightStatus = .ok →
      env.copyOutputStatus = .ok →
      env.blasStatus (batchedCall (forceFlag l tA) (forceFlag r tB) hr) = .error e →
      ComputeInternal env helper l r tA tB =
        (.error e, [.allocOutput hr.outputShape, .stage .leftArrays, .stage .rightArrays,
          .stage .outputArrays,
          .blas (batchedCall (forceFlag l tA) (forceFlag r tB) hr)])) := by
  refine ⟨fun e hcl => ?_, fun e hcl hcr => ?_, fun e hcl hcr hco => ?_,
    fun e hcl hcr hco hb => ?_⟩
  · exact computeInternal_fallback_errL env helper l r tA tB hr e hh hsz hone hcu hcl
  · exact computeInternal_fallback_errR env helper l r tA tB hr e hh hsz hone hcu hcl hcr
  · exact computeInternal_fallback_errO env helper l r tA tB hr e hh hsz hone hcu hcl hcr hco
  · rw [computeInternal_fallback_ok env helper l r tA tB hr hh hsz hone hcu hcl hcr hco, hb]
    rfl

/-- Witness for C8: a failing left-pointer-array staging copy aborts the
fallback dispatch with its error and no BLAS call. -/
theorem matmul_fallback_error_propagation_witness :
    ComputeInternal ⟨.error 7, .ok, .ok, fun _ => .ok⟩
        (fun _ _ _ _ => .ok ⟨2, 2, 2, ⟨[2, 2, 2]⟩, [0, 4], [0, 4], [0, 4]⟩)
        ⟨[2, 2]⟩ ⟨[2, 2]⟩ false false =
      (.error 7, [.allocOutput ⟨[2, 2, 2]⟩, .stage .leftArrays]) :=
  (matmul_fallback_error_propagation ⟨.error 7, .ok, .ok, fun _ => .ok⟩
    (fun _ _ _ _ => .ok ⟨2, 2, 2, ⟨[2, 2, 2]⟩, [0, 4], [0, 4], [0, 4]⟩)
    ⟨[2, 2]⟩ ⟨[2, 2]⟩ false false ⟨2, 2, 2, ⟨[2, 2, 2]⟩, [0, 4], [0, 4], [0, 4]⟩
    rfl (by decide) (by decide) (by decide)).1 7 rfl

/-- C10: the four stride variables declared uninitialized in
`ComputeInternal` are assigned exactly on the `true` path of
`CanUseStridedBatchedGemm` and read only inside the branch guarded by that
`true` answer, so no execution of `ComputeInternal` reads an uninitialized
value. -/
theorem matmul_no_uninitialized_read (env : DeviceEnv) (helper : HelperFun)
    (l r : TensorShape) (tA tB : Bool) :
    (ComputeInternal env helper l r tA tB).1 ≠ ComputeResult.uninitRead := by
  rcases hres : helper l r (forceFlag l tA) (forceFlag r tB) with e | hr
  · rw [computeInternal_helper_err env helper l r tA tB e hres]
    simp
  · by_cases hsz : hr.outputShape.Size = 0
    · rw [computeInternal_empty env helper l r tA tB hr hres hsz]
      simp
    · by_cases hone : hr.outputOffsets.length = 1
      · rw [computeInternal_single env helper l r tA tB hr hres hsz hone]
        cases env.blasStatus (singleCall (forceFlag l tA) (forceFlag r tB) hr) <;>
          simp [statusToResult]
      · by_cases hcu : (CanUseStridedBatchedGemm l r (forceFlag l tA) (forceFlag r tB)).1 = true
        · obtain ⟨s, hpair⟩ := canUse_true_pair l r (forceFlag l tA) (forceFlag r tB) hcu
          rw [computeInternal_strided env helper l r tA tB hr s hres hsz hone hpair]
          cases env.blasStatus (stridedCall (forceFlag l tA) (forceFlag r tB) hr s) <;>
            simp [statusToResult]
        · have hcu' : (CanUseStridedBatchedGemm l r (forceFlag l tA) (forceFlag r tB)).1 = false :=
            Bool.not_eq_true _ ▸ Bool.of_not_eq_true hcu
          rcases hcl : env.copyLeftStatus with _ | e
          · rcases hcr : env.copyRightStatus with _ | e
            · rcases hco : env.copyOutputStatus with _ | e
              · rw [computeInternal_fallback_ok env helper l r tA tB hr
                  hres hsz hone hcu' hcl hcr hco]
                cases env.blasStatus (batchedCall (forceFlag l tA) (forceFlag r tB) hr) <;>
                  simp [statusToResult]
              · rw [computeInternal_fallback_errO env helper l r tA tB hr e
                  hres hsz hone hcu' hcl hcr hco]
                simp
            · rw [computeInternal_fallback_errR env helper l r tA tB hr e
                hres hsz hone hcu' hcl hcr]
              simp
          · rw [computeInternal_fallback_errL env helper l r tA tB hr e
              hres hsz hone hcu' hcl]
            simp

/-- Witness for C10 at a concrete fallback dispatch. -/
theorem matmul_no_uninitialized_read_witness :
    (ComputeInternal ⟨.ok, .ok, .ok, fun _ => .ok⟩
        (fun _ _ _ _ => .ok ⟨2, 2, 2, ⟨[2, 2, 2]⟩, [0, 4], [0, 4], [0, 4]⟩)
        ⟨[2, 2]⟩ ⟨[2, 2]⟩ false false).1 ≠ ComputeResult.uninitRead :=
  matmul_no_uninitialized_read ⟨.ok, .ok, .ok, fun _ => .ok⟩
    (fun _ _ _ _ => .ok ⟨2, 2, 2, ⟨[2, 2, 2]⟩, [0, 4], [0, 4], [0, 4]⟩)
    ⟨[2, 2]⟩ ⟨[2, 2]⟩ false false

/-! ### The mixed-precision scale kernel (`mixed_precision_scale.cu`)

The element types are abstract carriers `SrcT`, `DstT` and a 32-bit float
carrier `F`, with the multiplication and the two casts of kernel line 16
as uninterpreted functions; the four supported `(SrcT, DstT)` pairs of the
explicit template instantiations at lines 41-44 are instances of this
generality.  Device memory is a total map `Nat → DstT`; a kernel launch is
the fold of the per-thread body over every launched global thread index. -/

/-- Modelled from the spec: `CeilDiv` of
`core/providers/rocm/cu_inc/common.cuh` (not among these sources), the
rounded-up quotient used to size the grid. -/
def CeilDiv (nominator denominator : Nat) : Nat :=
  (nominator + denominator - 1) / denominator

/-- Modelled from the spec: the global thread indices of a launch of
`blocksPerGrid` blocks of `threadsPerBlock` threads, each thread's index
being `blockIdx * blockDim + threadIdx` as computed by the
`CALCULATE_ELEMENTWISE_INDEX_OR_EXIT` macro of `common.cuh` (not among
these sources). -/
def gridThreadIds (blocksPerGrid threadsPerBlock : Nat) : List Nat :=
  (List.range blocksPerGrid).flatMap
    (fun blockIdx => (List.range threadsPerBlock).map
      (fun threadIdx => blockIdx * threadsPerBlock + threadIdx))

/-- Per-thread body of the `_MixedPrecisionScale` kernel
(mixed_precision_scale.cu, lines 10-17): a thread with global index `id`
exits if `id >= N` and otherwise writes
`output_data[id] = static_cast<DstT>(*scale_data * static_cast<float>(input_data[id]))`. -/
def MixedPrecisionScaleThread {SrcT DstT F : Type}
    (fmul : F → F → F) (srcToFloat : SrcT → F) (dstCast : F → DstT)
    (input_data : Nat → SrcT) (scale_data : F)
    (output_data : Nat → DstT) (N : Nat) (id : Nat) : Nat → DstT :=
  if id < N then
    Function.update output_data id (dstCast (fmul scale_data (srcToFloat (input_data id))))
  else
    output_data

/-- Embedding of `Impl_MixedPrecisionScale` (mixed_precision_scale.cu,
lines 19-32): launch `CeilDiv count maxThreadsPerBlock` blocks of
`maxThreadsPerBlock` threads of the kernel, modelled as folding the
per-thread body over all launched global thread indices. -/
def Impl_MixedPrecisionScale {SrcT DstT F : Type}
    (fmul : F → F → F) (srcToFloat : SrcT → F) (dstCast : F → DstT)
    (maxThreadsPerBlock : Nat) (input_data : Nat → SrcT) (scale_data : F)
    (output_data : Nat → DstT) (count : Nat) : Nat → DstT :=
  let blocksPerGrid := CeilDiv count maxThreadsPerBlock
  (gridThreadIds blocksPerGrid maxThreadsPerBlock).foldl
    (fun mem id =>
      MixedPrecisionScaleThread fmul srcToFloat dstCast input_data scale_data mem count id)
    output_data

/-- Folding guarded writes over one block of `T` consecutive indices
starting at `base` updates exactly the indices of `[base, base+T)` that
are below `N`. -/
theorem foldl_threadWrite_block {α : Type} (N : Nat) (g : Nat → α) (T base : Nat)
    (mem : Nat → α) (i : Nat) :
    (((List.range T).map (fun t => base + t)).foldl
      (fun m id => if id < N then Function.update m id (g id) else m) mem) i
      = if i < N ∧ base ≤ i ∧ i < base + T then g i else mem i := by
  induction T with
  | zero => rw [if_neg (by omega)]; simp
  | succ T ih =>
    rw [List.range_succ, List.map_append, List.foldl_append]
    simp only [List.map_cons, List.map_nil, List.foldl_cons, List.foldl_nil]
    rcases eq_or_ne i (base + T) with rfl | hne
    · by_cases hlt : base + T < N
      · simp only [if_pos hlt, Function.update_same]
        rw [if_pos (by omega)]
      · simp only [if_neg hlt]
        rw [ih, if_neg (by omega), if_neg (by omega)]
    · by_cases hlt : base + T < N
      · simp only [if_pos hlt]
        rw [Function.update_noteq hne, ih]
        by_cases hi : i < N ∧ base ≤ i ∧ i < base + T
        · rw [if_pos hi, if_pos (by omega)]
        · rw [if_neg hi, if_neg (by omega)]
      · simp only [if_neg hlt]
        rw [ih]
        by_cases hi : i < N ∧ base ≤ i ∧ i < base + T
        · rw [if_pos hi, if_pos (by omega)]
        · rw [if_neg hi, if_neg (by omega)]

/-- Folding guarded writes over the whole grid updates exactly the
indices below both `N` and the number of launched threads. -/
theorem foldl_threadWrite_grid {α : Type} (N : Nat) (g : Nat → α) (T blocks : Nat)
    (mem : Nat → α) (i : Nat) :
    ((gridThreadIds blocks T).foldl
      (fun m id => if id < N then Function.update m id (g id) else m) mem) i
      = if i < N ∧ i < blocks * T then g i else mem i := by
  induction blocks with
  | zero => simp [gridThreadIds]
  | succ b ih =>
    have hsplit : gridThreadIds (b + 1) T =
        gridThreadIds b T ++ (List.range T).map (fun t => b * T + t) := by
      simp [gridThreadIds, List.range_succ]
    rw [hsplit, List.foldl_append, foldl_threadWrite_block, ih, Nat.succ_mul]
    generalize b * T = base
    by_cases h1 : i < N ∧ base ≤ i ∧ i < base + T
    · rw [if_pos h1, if_pos (by omega)]
    · rw [if_neg h1]
      by_cases h2 : i < N ∧ i < base
      · rw [if_pos h2, if_pos (by omega)]
      · rw [if_neg h2, if_neg (by omega)]

/-- The launched grid covers every index below `count`. -/
theorem count_le_grid (count T : Nat) (hT : 0 < T) :
    count ≤ CeilDiv count T * T := by
  rcases Nat.eq_zero_or_pos count with hc | hc
  · simp [hc]
  · have h1 : CeilDiv count T = (count - 1) / T + 1 := by
      unfold CeilDiv
      have he : count + T - 1 = (count - 1) + T := by omega
      rw [he, Nat.add_div_right _ hT]
    have h4 : (count - 1) / T < CeilDiv count T := by
      rw [h1]
      omega
    have h5 : count - 1 < CeilDiv count T * T := (Nat.div_lt_iff_lt_mul hT).mp h4
    generalize CeilDiv count T * T = W at h5 ⊢
    omega

/-- C4: for every element count and every index `i`, the launched kernel
leaves memory equal to the input memory overwritten on exactly `[0, count)`
with `dstCast (scale * srcToFloat (input i))`; indices outside `[0, count)`
are untouched.  `SrcT`, `DstT` and the float carrier are universally
quantified, covering all four instantiated `(SrcT, DstT)` pairs. -/
theorem mixedPrecisionScale_elements {SrcT DstT F : Type}
    (fmul : F → F → F) (srcToFloat : SrcT → F) (dstCast : F → DstT)
    (T : Nat) (hT : 0 < T)
    (input_data : Nat → SrcT) (scale_data : F) (output_data : Nat → DstT)
    (count i : Nat) :
    Impl_MixedPrecisionScale fmul srcToFloat dstCast T input_data scale_data
        output_data count i
      = if i < count then dstCast (fmul scale_data (srcToFloat (input_data i)))
        else output_data i := by
  have hcover := count_le_grid count T hT
  simp only [Impl_MixedPrecisionScale, MixedPrecisionScaleThread]
  rw [foldl_threadWrite_grid]
  by_cases hi : i < count
  · rw [if_pos ⟨hi, lt_of_lt_of_le hi hcover⟩, if_pos hi]
  · rw [if_neg (fun h => hi h.1), if_neg hi]

/-- Witness for C4: scaling the constant-2 buffer of one element by 3
(integer carriers, identity casts) writes 6 at index 0. -/
theorem mixedPrecisionScale_elements_witness :
    Impl_MixedPrecisionScale (fun a b : Int => a * b) (fun x => x) (fun x => x)
      256 (fun _ => (2 : Int)) 3 (fun _ => (0 : Int)) 1 0 = 6 := by
  rw [mixedPrecisionScale_elements (fun a b : Int => a * b) (fun x => x) (fun x => x)
    256 (by decide) (fun _ => (2 : Int)) 3 (fun _ => (0 : Int)) 1 0]
  norm_num

/-- C9: with `count = 0` no block is launched, so the output buffer is
unchanged and the launch trivially succeeds. -/
theorem mixedPrecisionScale_zero_count {SrcT DstT F : Type}
    (fmul : F → F → F) (srcToFloat : SrcT → F) (dstCast : F → DstT)
    (T : Nat) (input_data : Nat → SrcT) (scale_data : F)
    (output_data : Nat → DstT) :
    Impl_MixedPrecisionScale fmul srcToFloat dstCast T input_data scale_data
        output_data 0
      = output_data := by
  have h0 : CeilDiv 0 T = 0 := by
    unfold CeilDiv
    rcases Nat.eq_zero_or_pos T with rfl | hT
    · rfl
    · exact Nat.div_eq_of_lt (by omega)
  simp [Impl_MixedPrecisionScale, gridThreadIds, h0]

/-- Witness for C9 at concrete integer carriers. -/
theorem mixedPrecisionScale_zero_count_witness :
    Impl_MixedPrecisionScale (fun a b : Int => a * b) (fun x => x) (fun x => x)
      256 (fun _ => (2 : Int)) 3 (fun _ => (5 : Int)) 0 = (fun _ => (5 : Int)) :=
  mixedPrecisionScale_zero_count (fun a b : Int => a * b) (fun x => x) (fun x => x)
    256 (fun _ => (2 : Int)) 3 (fun _ => (5 : Int))

end OnnxRocm
